import Mathlib

/-!
Verification of the pure logic of `src/frontend/src/components/HMSErrorModal.tsx`
(repository maziggy/bambusy).

The component's computations are embedded shallowly:
* JavaScript numbers that flow through the bitwise operators are modelled as
  `Int`; the `ToInt32`/`ToUint32` conversions that JavaScript performs inside
  `>>` and `&` are made explicit (`toInt32`, `toUint32`, reduction modulo
  `2 ^ 32`).
* Strings are Lean `String`s; `toString(16)`, `padStart`, `toUpperCase`,
  `toLowerCase`, `includes`, `replace` and `parseInt(s, 16)` are modelled
  character-by-character after the ECMAScript behaviour on the values that
  occur here.
* The static lookup object `HMS_DESCRIPTIONS` becomes an association list with
  pairwise-distinct keys, so first-match lookup coincides with JavaScript
  property access.
-/

/-- `ToUint32` of ECMAScript for integral inputs: reduction modulo `2 ^ 32`
(Lean's `%` on `Int` returns the non-negative representative). -/
def toUint32 (i : Int) : Nat :=
  (i % 4294967296).toNat

/-- `ToInt32` of ECMAScript for integral inputs: the representative of
`i mod 2 ^ 32` in `[-2 ^ 31, 2 ^ 31)`. -/
def toInt32 (i : Int) : Int :=
  if toUint32 i < 2147483648 then (toUint32 i : Int)
  else (toUint32 i : Int) - 4294967296

/-- JavaScript signed right shift `a >> k` for a constant shift count
`k < 32`: `ToInt32` the operand, then shift arithmetically.  An arithmetic
right shift by `k` is floor division by `2 ^ k`, which for a positive divisor
is exactly Lean's `Int` division. -/
def jsShr (a : Int) (k : Nat) : Int :=
  toInt32 a / (2 ^ (k % 32) : Int)

/-- JavaScript bitwise and `a & b`: `ToInt32` both operands, bitwise and of
the 32-bit patterns, result read back as a signed 32-bit integer. -/
def jsAnd (a b : Int) : Int :=
  toInt32 (Int.ofNat (Nat.land (toUint32 a) (toUint32 b)))

/-- JavaScript `Number.prototype.toString(16)` for an integral value: minimal
lowercase hexadecimal digits, with a leading minus sign for negatives.
(In the component it is only ever applied to byte values `0..255`.) -/
def jsNumToHexStr (i : Int) : String :=
  if i < 0 then "-" ++ String.mk (Nat.toDigits 16 (-i).toNat)
  else String.mk (Nat.toDigits 16 i.toNat)

/-- JavaScript `String.prototype.padStart(len, pad)` for a one-character pad
string: prepend copies of `pad` until the length is at least `len`. -/
def padStart (len : Nat) (pad : Char) (s : String) : String :=
  String.mk (List.replicate (len - s.length) pad ++ s.data)

/-- JavaScript `String.prototype.toUpperCase()`; Lean's `Char.toUpper` agrees
with it on the ASCII characters produced here. -/
def jsToUpperCase (s : String) : String :=
  String.mk (s.data.map Char.toUpper)

/-- The `.toString(16).padStart(2, '0').toUpperCase()` pipeline applied to
each masked byte in `getFullHMSCode`. -/
def hexFormat (i : Int) : String :=
  jsToUpperCase (padStart 2 '0' (jsNumToHexStr i))

/-- `getFullHMSCode` (HMSErrorModal.tsx lines 47-62): packs `attr` and `code`
into the string `AAAA_BBBB_CCCC_DDDD`. -/
def getFullHMSCode (attr code : Int) : String :=
  let a1 := hexFormat (jsAnd (jsShr attr 24) 255)
  let a2 := hexFormat (jsAnd (jsShr attr 16) 255)
  let a3 := hexFormat (jsAnd (jsShr attr 8) 255)
  let a4 := hexFormat (jsAnd attr 255)
  let c1 := hexFormat (jsAnd (jsShr code 24) 255)
  let c2 := hexFormat (jsAnd (jsShr code 16) 255)
  let c3 := hexFormat (jsAnd (jsShr code 8) 255)
  let c4 := hexFormat (jsAnd code 255)
  a1 ++ a2 ++ "_" ++ a3 ++ a4 ++ "_" ++ c1 ++ c2 ++ "_" ++ c3 ++ c4

/-- Uppercase hexadecimal digit for `d < 16`, as in the spec's
"two uppercase hexadecimal digits (zero-padded)". -/
def hexDigitU (d : Nat) : Char :=
  if d < 10 then Char.ofNat (48 + d) else Char.ofNat (55 + d)

/-- Zero-padded two-digit uppercase hexadecimal rendering of a byte. -/
def specHexPair (n : Nat) : String :=
  String.mk [hexDigitU (n / 16), hexDigitU (n % 16)]

/-- Byte `i` (0 = least significant) of a 32-bit value. -/
def byteAt (x : Nat) (i : Nat) : Nat :=
  x / 2 ^ (8 * i) % 256

/-- The output format stated by the spec: `AAAA_BBBB_CCCC_DDDD`, bytes
rendered most-significant first, `attr` giving the first two groups and
`code` the last two. -/
def specFullCode (attr code : Nat) : String :=
  specHexPair (byteAt attr 3) ++ specHexPair (byteAt attr 2) ++ "_" ++
  specHexPair (byteAt attr 1) ++ specHexPair (byteAt attr 0) ++ "_" ++
  specHexPair (byteAt code 3) ++ specHexPair (byteAt code 2) ++ "_" ++
  specHexPair (byteAt code 1) ++ specHexPair (byteAt code 0)

/-- Uppercase hexadecimal digit characters `0-9A-F`. -/
def isUpperHexDigit (ch : Char) : Bool :=
  (48 ≤ ch.toNat && ch.toNat ≤ 57) || (65 ≤ ch.toNat && ch.toNat ≤ 70)

/-- The pattern `[0-9A-F]{4}_[0-9A-F]{4}_[0-9A-F]{4}_[0-9A-F]{4}` on a
character list. -/
def hmsShape : List Char → Bool
  | [a1, a2, a3, a4, '_', b1, b2, b3, b4, '_', c1, c2, c3, c4, '_', d1, d2, d3, d4] =>
    [a1, a2, a3, a4, b1, b2, b3, b4, c1, c2, c3, c4, d1, d2, d3, d4].all isUpperHexDigit
  | _ => false

/-- The hyphen-separated variant of `specFullCode`, as shown on screen after
`replace(/_/g, '-')`. -/
def specHyphenCode (attr code : Nat) : String :=
  specHexPair (byteAt attr 3) ++ specHexPair (byteAt attr 2) ++ "-" ++
  specHexPair (byteAt attr 1) ++ specHexPair (byteAt attr 0) ++ "-" ++
  specHexPair (byteAt code 3) ++ specHexPair (byteAt code 2) ++ "-" ++
  specHexPair (byteAt code 1) ++ specHexPair (byteAt code 0)

/-- The static object `HMS_DESCRIPTIONS` (lines 14-31), as an association
list in source order; its keys are pairwise distinct, so first-match lookup
agrees with JavaScript property access. -/
def HMS_DESCRIPTIONS : List (String × String) :=
  [("0700_5500_0002_0001", "A binding error occurred between AMS and the extruder. Please perform AMS initialization again."),
   ("0500_0300_0002_000E", "Some modules are incompatible with the printer firmware version. Please update firmware."),
   ("0300_0100_0002_0054", "The heatbed temperature is abnormal. The sensor may be disconnected or damaged."),
   ("0500_0100_0005_0005", "Motor driver overheated. Let the printer cool down."),
   ("0500_0100_0005_0006", "Motor driver communication error."),
   ("0700_0100_0007_0001", "AMS communication error."),
   ("0700_0100_0007_0002", "AMS filament runout."),
   ("0700_0100_0007_0003", "AMS filament not detected."),
   ("0C00_0100_000C_0003", "First layer inspection failed."),
   ("0C00_0100_000C_0004", "Nozzle clog detected."),
   ("0C00_0100_000C_8000", "Foreign object detected on print bed."),
   ("0500_0100_0005_0000", "Motor X axis lost steps."),
   ("0500_0100_0005_0001", "Motor Y axis lost steps."),
   ("0500_0100_0005_0002", "Motor Z axis lost steps.")]

/-- Property access `table[key]`: the value at the first matching key, or
`none` (JavaScript `undefined`) when the key is absent. -/
def findDescription : List (String × String) → String → Option String
  | [], _ => none
  | (k, v) :: rest, key => if key = k then some v else findDescription rest key

/-- JavaScript `x || dflt` for a possibly-`undefined` string `x`: the
default replaces `undefined` and the empty string (the falsy cases). -/
def jsOrDefault (x : Option String) (dflt : String) : String :=
  match x with
  | some s => if s = "" then dflt else s
  | none => dflt

/-- The description picked on line 118:
`HMS_DESCRIPTIONS[fullHMSCode] || 'Unknown error. Click the link below for details.'`. -/
def descriptionFor (fullCode : String) : String :=
  jsOrDefault (findDescription HMS_DESCRIPTIONS fullCode)
    "Unknown error. Click the link below for details."

/-- The three lucide icons used by `getSeverityInfo`. -/
inductive HMSIcon where
  | alertTriangle
  | alertCircle
  | info
  deriving DecidableEq

/-- The record returned by `getSeverityInfo`. -/
structure SeverityInfo where
  label : String
  color : String
  bgColor : String
  icon : HMSIcon
  deriving DecidableEq

/-- `getSeverityInfo` (lines 33-45). In the source, `case 4:` falls through
to `default:`, so both produce the Info record. -/
def getSeverityInfo (severity : Int) : SeverityInfo :=
  match severity with
  | 1 => { label := "Fatal", color := "text-red-500", bgColor := "bg-red-500/20", icon := .alertTriangle }
  | 2 => { label := "Serious", color := "text-red-400", bgColor := "bg-red-500/15", icon := .alertTriangle }
  | 3 => { label := "Warning", color := "text-orange-400", bgColor := "bg-orange-500/20", icon := .alertCircle }
  | _ => { label := "Info", color := "text-blue-400", bgColor := "bg-blue-500/20", icon := .info }

/-- JavaScript `String.prototype.toLowerCase()`; Lean's `Char.toLower` agrees
with it on ASCII, which decides the `'h2'` test below. -/
def jsToLowerCase (s : String) : String :=
  String.mk (s.data.map Char.toLower)

/-- Substring containment on character lists, as JavaScript
`String.prototype.includes` (with no start index). -/
def containsSub (pat : List Char) : List Char → Bool
  | [] => pat.isEmpty
  | ch :: t => pat.isPrefixOf (ch :: t) || containsSub pat t

/-- `includes` on strings. -/
def jsIncludes (s pat : String) : Bool :=
  containsSub pat.data s.data

/-- `getHMSWikiUrl` (lines 64-73). -/
def getHMSWikiUrl (attr code : Int) (printerName : String) : String :=
  let fullCode := getFullHMSCode attr code
  let isH2 := jsIncludes (jsToLowerCase printerName) "h2"
  let basePath := if isH2 then "h2" else "x1"
  "https://wiki.bambulab.com/en/" ++ basePath ++ "/troubleshooting/hmscode/" ++ fullCode

/-- Hexadecimal value of a character, case-insensitive (`parseInt` accepts
both cases). -/
def hexVal (ch : Char) : Option Nat :=
  if 48 ≤ ch.toNat ∧ ch.toNat ≤ 57 then some (ch.toNat - 48)
  else if 97 ≤ ch.toNat ∧ ch.toNat ≤ 102 then some (ch.toNat - 87)
  else if 65 ≤ ch.toNat ∧ ch.toNat ≤ 70 then some (ch.toNat - 55)
  else none

/-- ECMAScript whitespace and line terminators skipped by `parseInt`
(the ASCII ones; the component only ever passes ASCII codes). -/
def isJsWs (ch : Char) : Bool :=
  ch = ' ' || ch = '\t' || ch = '\n' || ch = '\r' || ch.toNat = 11 || ch.toNat = 12

/-- `parseInt(s, 16)` of ECMAScript: skip leading whitespace, read an
optional sign, drop an optional `0x`/`0X` prefix, then evaluate the longest
prefix of hexadecimal digits; `none` models the `NaN` result when no digit
is found, and trailing non-digit characters are ignored. -/
def jsParseIntHex (s : String) : Option Int :=
  let t0 := s.data.dropWhile (fun ch => isJsWs ch)
  let sign : Int := match t0 with
    | '-' :: _ => -1
    | _ => 1
  let t1 := match t0 with
    | '-' :: r => r
    | '+' :: r => r
    | _ => t0
  let t2 := match t1 with
    | '0' :: x :: r => if x = 'x' ∨ x = 'X' then r else t1
    | _ => t1
  let digits := t2.takeWhile (fun ch => (hexVal ch).isSome)
  if digits.isEmpty then none
  else some (sign * Int.ofNat (digits.foldl (fun acc ch => acc * 16 + (hexVal ch).getD 0) 0))

/-- JavaScript `String.prototype.replace` with a plain-string pattern and an
empty replacement: remove the first occurrence of `pat`, if any. -/
def removeFirst (pat : List Char) : List Char → List Char
  | [] => []
  | ch :: t =>
    if pat.isPrefixOf (ch :: t) then (ch :: t).drop pat.length
    else ch :: removeFirst pat t

/-- Line 117: `parseInt(error.code.replace('0x', ''), 16) || 0`.  The `|| 0`
turns the falsy results (`NaN`, `±0`) into `0`; on integers only the `NaN`
case changes anything. -/
def codeNumOf (codeStr : String) : Int :=
  match jsParseIntHex (String.mk (removeFirst ['0', 'x'] codeStr.data)) with
  | some v => if v = 0 then 0 else v
  | none => 0

/-- Modelled from the claim's wording for comparison with `codeNumOf`:
parse the code field as hexadecimal after stripping an optional `0x`
prefix (rather than removing the first occurrence anywhere), `NaN`
becoming `0`. -/
def stripPrefix0x (l : List Char) : List Char :=
  if ['0', 'x'].isPrefixOf l then l.drop 2 else l

/-- The code number as the claim describes it: prefix-strip, then
`parseInt(·, 16)`, then `|| 0`. -/
def specCodeNum (codeStr : String) : Int :=
  match jsParseIntHex (String.mk (stripPrefix0x codeStr.data)) with
  | some v => if v = 0 then 0 else v
  | none => 0

/-- Line 120: `fullHMSCode.replace(/_/g, '-')` — every underscore becomes a
hyphen. -/
def hyphenate (s : String) : String :=
  String.mk (s.data.map (fun ch => if ch = '_' then '-' else ch))

/-- One entry of the `errors` prop (shape used by the component: `attr` is a
number, `code` a string, `severity` a number). -/
structure HMSError where
  attr : Int
  code : String
  severity : Int

/-- Everything the component computes for one list entry (lines 115-121):
severity record, parsed code number, formatted code, description, wiki URL
and the on-screen `HMS_…` label. -/
structure RenderedError where
  sev : SeverityInfo
  fullHMSCode : String
  description : String
  wikiUrl : String
  displayCode : String

/-- The per-error computation of the render loop (lines 115-121). -/
def renderError (printerName : String) (e : HMSError) : RenderedError :=
  let sev := getSeverityInfo e.severity
  let codeNum := codeNumOf e.code
  let fullHMSCode := getFullHMSCode e.attr codeNum
  let description := descriptionFor fullHMSCode
  let wikiUrl := getHMSWikiUrl e.attr codeNum printerName
  let displayCode := "HMS_" ++ hyphenate fullHMSCode
  { sev := sev, fullHMSCode := fullHMSCode, description := description,
    wikiUrl := wikiUrl, displayCode := displayCode }

/-- A keyboard event as seen by the `handleKeyDown` listener. -/
structure KeyboardEvent where
  key : String

/-- The Escape handler (lines 80-86): `if (e.key === 'Escape') onClose();`.
The returned Boolean records whether `onClose` is invoked; the handler has no
other effect. -/
def handleKeyDown (e : KeyboardEvent) : Bool :=
  e.key == "Escape"

example : getFullHMSCode 305419896 2596069104 = "1234_5678_9ABC_DEF0" := by decide
example : specFullCode 305419896 2596069104 = "1234_5678_9ABC_DEF0" := by decide
example : getFullHMSCode (-1) (-1) = "FFFF_FFFF_FFFF_FFFF" := by decide
example : codeNumOf "0x1A" = 26 := by decide
example : codeNumOf "zz" = 0 := by decide
example : codeNumOf "120x34" = 4660 := by decide
example : jsIncludes (jsToLowerCase "My H2D") "h2" = true := by decide
example : jsIncludes (jsToLowerCase "X1 Carbon") "h2" = false := by decide
example : descriptionFor "0700_0100_0007_0002" = "AMS filament runout." := by decide
example : hyphenate "1234_5678_9ABC_DEF0" = "1234-5678-9ABC-DEF0" := by decide

lemma land_255 (x : Nat) : Nat.land x 255 = x % 256 := by
  have h := Nat.and_pow_two_sub_one_eq_mod x 8
  norm_num at h
  exact h

lemma toInt32_natCast_small (n : Nat) (h : n < 2147483648) :
    toInt32 (n : Int) = (n : Int) := by
  simp only [toInt32, toUint32]
  split <;> omega

/-- Byte 3: the low byte of `a >> 24` is byte 3 of the 32-bit reduction. -/
lemma toUint32_jsShr24 (a : Int) :
    toUint32 (jsShr a 24) % 256 = toUint32 a / 16777216 % 256 := by
  have e1 : (24 % 32 : Nat) = 24 := rfl
  have e2 : ((2 : Int) ^ (24 : Nat)) = 16777216 := by norm_num
  simp only [jsShr, toInt32, toUint32, e1, e2]
  split_ifs <;> omega

/-- Byte 2: the low byte of `a >> 16` is byte 2 of the 32-bit reduction. -/
lemma toUint32_jsShr16 (a : Int) :
    toUint32 (jsShr a 16) % 256 = toUint32 a / 65536 % 256 := by
  have e1 : (16 % 32 : Nat) = 16 := rfl
  have e2 : ((2 : Int) ^ (16 : Nat)) = 65536 := by norm_num
  simp only [jsShr, toInt32, toUint32, e1, e2]
  split_ifs <;> omega

/-- Byte 1: the low byte of `a >> 8` is byte 1 of the 32-bit reduction. -/
lemma toUint32_jsShr8 (a : Int) :
    toUint32 (jsShr a 8) % 256 = toUint32 a / 256 % 256 := by
  have e1 : (8 % 32 : Nat) = 8 := rfl
  have e2 : ((2 : Int) ^ (8 : Nat)) = 256 := by norm_num
  simp only [jsShr, toInt32, toUint32, e1, e2]
  split_ifs <;> omega

/-- `a & 0xFF` extracts byte 0 of the 32-bit reduction of `a`. -/
lemma jsAnd_255 (a : Int) :
    jsAnd a 255 = ((toUint32 a % 256 : Nat) : Int) := by
  have e3 : ((255 : Int) % 4294967296).toNat = 255 := rfl
  simp only [jsAnd, toInt32, toUint32, e3, Int.ofNat_eq_natCast]
  rw [land_255]
  split_ifs <;> omega

set_option maxRecDepth 4000 in
/-- On byte values the JavaScript hex pipeline agrees with the canonical
two-digit uppercase rendering. -/
lemma hexFormat_eq_specHexPair : ∀ n : Nat, n < 256 →
    hexFormat ((n : Nat) : Int) = specHexPair n := by
  decide

/-- Normal form of `getFullHMSCode`: byte-wise most-significant-first
rendering of the 32-bit reductions of its two arguments. -/
lemma getFullHMSCode_eq (a c : Int) :
    getFullHMSCode a c = specFullCode (toUint32 a) (toUint32 c) := by
  have H : ∀ m : Nat, hexFormat ((m % 256 : Nat) : Int) = specHexPair (m % 256) :=
    fun m => hexFormat_eq_specHexPair _ (Nat.mod_lt _ (by norm_num))
  simp only [getFullHMSCode, specFullCode, jsAnd_255, H, byteAt,
    toUint32_jsShr24, toUint32_jsShr16, toUint32_jsShr8]
  norm_num

lemma string_data_append (s t : String) : (s ++ t).data = s.data ++ t.data := rfl

lemma string_mk_data (l : List Char) : (String.mk l).data = l := rfl

lemma isUpperHexDigit_hexDigitU : ∀ d : Nat, d < 16 →
    isUpperHexDigit (hexDigitU d) = true := by
  decide

lemma byteAt_div_lt (u i : Nat) : byteAt u i / 16 < 16 := by
  have : byteAt u i < 256 := Nat.mod_lt _ (by norm_num)
  omega

lemma byteAt_mod_lt (u i : Nat) : byteAt u i % 16 < 16 := Nat.mod_lt _ (by norm_num)

/-- C1: for unsigned 32-bit inputs, `getFullHMSCode` produces exactly the
spec's `AAAA_BBBB_CCCC_DDDD` string: each byte rendered as two zero-padded
uppercase hexadecimal digits, most-significant byte first, `attr` giving
the first two groups and `code` the last two. -/
theorem getFullHMSCode_formats_bytes (attr code : Nat)
    (ha : attr < 4294967296) (hc : code < 4294967296) :
    getFullHMSCode (attr : Int) (code : Int) = specFullCode attr code := by
  have h1 : toUint32 (attr : Int) = attr := by simp only [toUint32]; omega
  have h2 : toUint32 (code : Int) = code := by simp only [toUint32]; omega
  rw [getFullHMSCode_eq, h1, h2]

/-- Witness for C1 at `attr = 0x12345678`, `code = 0x9ABCDEF0`. -/
theorem getFullHMSCode_formats_bytes_witness :
    (0x12345678 : Nat) < 4294967296 ∧ (0x9ABCDEF0 : Nat) < 4294967296 ∧
    getFullHMSCode ((0x12345678 : Nat) : Int) ((0x9ABCDEF0 : Nat) : Int) =
      specFullCode 0x12345678 0x9ABCDEF0 :=
  ⟨by norm_num, by norm_num,
    getFullHMSCode_formats_bytes 0x12345678 0x9ABCDEF0 (by norm_num) (by norm_num)⟩

set_option maxRecDepth 8000 in
/-- C5: boundary behaviour of the formatter: all-zero bytes, all-ones bytes
(the signed shifts of `0xFFFFFFFF` are repaired by the `& 0xFF` masks), and
an input pair with all bytes distinct lands every byte in its documented
group position. -/
theorem getFullHMSCode_boundaries :
    getFullHMSCode ((0x00000000 : Nat) : Int) ((0x00000000 : Nat) : Int) =
      "0000_0000_0000_0000" ∧
    getFullHMSCode ((0xFFFFFFFF : Nat) : Int) ((0xFFFFFFFF : Nat) : Int) =
      "FFFF_FFFF_FFFF_FFFF" ∧
    getFullHMSCode ((0x12345678 : Nat) : Int) ((0x9ABCDEF0 : Nat) : Int) =
      "1234_5678_9ABC_DEF0" := by
  refine ⟨by decide, by decide, by decide⟩

/-- C7: whatever integral JavaScript numbers reach it — negative or at and
above `2 ^ 32` — `getFullHMSCode` returns a string matching
`[0-9A-F]{4}_[0-9A-F]{4}_[0-9A-F]{4}_[0-9A-F]{4}`, because every byte is
taken from the `ToInt32` reduction and masked with `0xFF`. -/
theorem getFullHMSCode_wellFormed (a c : Int) :
    hmsShape (getFullHMSCode a c).data = true := by
  rw [getFullHMSCode_eq]
  have hu : ("_" : String).data = ['_'] := rfl
  simp only [specFullCode, string_data_append, string_mk_data, specHexPair, hu,
    List.cons_append, List.nil_append]
  simp only [hmsShape]
  simp [List.all_cons, isUpperHexDigit_hexDigitU, byteAt_div_lt, byteAt_mod_lt]

lemma findDescription_mem : ∀ (l : List (String × String)) (key d : String),
    findDescription l key = some d → d ∈ l.map Prod.snd
  | [], _, _ => by
    intro h
    simp [findDescription] at h
  | (k, v) :: rest, key, d => by
    intro h
    simp only [findDescription] at h
    split_ifs at h with hk
    · simp only [Option.some.injEq] at h
      simp [h]
    · have := findDescription_mem rest key d h
      simp [this]

lemma hms_values_ne : ∀ d ∈ HMS_DESCRIPTIONS.map Prod.snd, d ≠ "" := by decide

/-- C2: the description of every displayed error is the exact-match lookup
of the formatted code in `HMS_DESCRIPTIONS`, present keys returning their
mapped description and absent keys the fixed fallback message. -/
theorem description_lookup (name : String) (e : HMSError) (key d : String) :
    (renderError name e).description =
      descriptionFor (getFullHMSCode e.attr (codeNumOf e.code)) ∧
    (findDescription HMS_DESCRIPTIONS key = some d → descriptionFor key = d) ∧
    (findDescription HMS_DESCRIPTIONS key = none →
      descriptionFor key = "Unknown error. Click the link below for details.") := by
  refine ⟨by simp only [renderError], ?_, ?_⟩
  · intro h
    have hmem := findDescription_mem _ _ _ h
    have hne : d ≠ "" := hms_values_ne d hmem
    simp [descriptionFor, jsOrDefault, h, hne]
  · intro h
    simp [descriptionFor, jsOrDefault, h]

/-- Witness for C2: one present key returns its table entry, one absent key
returns the fallback. -/
theorem description_lookup_witness :
    findDescription HMS_DESCRIPTIONS "0700_0100_0007_0002" = some "AMS filament runout." ∧
    descriptionFor "0700_0100_0007_0002" = "AMS filament runout." ∧
    findDescription HMS_DESCRIPTIONS "DEAD_BEEF_0000_0000" = none ∧
    descriptionFor "DEAD_BEEF_0000_0000" = "Unknown error. Click the link below for details." :=
  ⟨by decide,
   (description_lookup "P" ⟨0, "0", 1⟩ "0700_0100_0007_0002" "AMS filament runout.").2.1 (by decide),
   by decide,
   (description_lookup "P" ⟨0, "0", 1⟩ "DEAD_BEEF_0000_0000" "").2.2 (by decide)⟩

/-- C4: `getSeverityInfo` is total on the integers: severities 1-3 map to
their fixed records, and every other integer takes the default branch,
yielding the same record as severity 4 (Info). -/
theorem getSeverityInfo_total (s : Int) (h1 : s ≠ 1) (h2 : s ≠ 2) (h3 : s ≠ 3) :
    getSeverityInfo 1 = ⟨"Fatal", "text-red-500", "bg-red-500/20", .alertTriangle⟩ ∧
    getSeverityInfo 2 = ⟨"Serious", "text-red-400", "bg-red-500/15", .alertTriangle⟩ ∧
    getSeverityInfo 3 = ⟨"Warning", "text-orange-400", "bg-orange-500/20", .alertCircle⟩ ∧
    getSeverityInfo 4 = ⟨"Info", "text-blue-400", "bg-blue-500/20", .info⟩ ∧
    getSeverityInfo s = getSeverityInfo 4 := by
  refine ⟨rfl, rfl, rfl, rfl, ?_⟩
  cases s with
  | ofNat n =>
    rcases n with _ | _ | _ | _ | n
    · rfl
    · exact absurd rfl h1
    · exact absurd rfl h2
    · exact absurd rfl h3
    · rfl
  | negSucc n => rfl

/-- Witness for C4 at the out-of-range severity `-5`. -/
theorem getSeverityInfo_total_witness :
    ((-5 : Int) ≠ 1 ∧ (-5 : Int) ≠ 2 ∧ (-5 : Int) ≠ 3) ∧
    getSeverityInfo (-5) = getSeverityInfo 4 :=
  ⟨⟨by decide, by decide, by decide⟩,
   (getSeverityInfo_total (-5) (by decide) (by decide) (by decide)).2.2.2.2⟩

/-- C6: the keyboard handler fires `onClose` exactly on the key `"Escape"`;
it does nothing else on any key. -/
theorem handleKeyDown_iff (e : KeyboardEvent) :
    handleKeyDown e = true ↔ e.key = "Escape" := by
  simp [handleKeyDown]

/-- `containsSub` decides substring containment. -/
lemma containsSub_iff (pat : List Char) :
    ∀ l : List Char, containsSub pat l = true ↔ pat <:+: l := by
  intro l
  induction l with
  | nil =>
    simp [containsSub, List.isEmpty_iff]
  | cons ch t ih =>
    simp only [containsSub, Bool.or_eq_true, List.isPrefixOf_iff_prefix, ih]
    constructor
    · rintro (h | h)
      · exact h.isInfix
      · exact h.trans (List.suffix_cons ch t).isInfix
    · intro h
      rcases h with ⟨s, r, hs⟩
      cases s with
      | nil =>
        left
        exact ⟨r, by simpa using hs⟩
      | cons x xs =>
        right
        refine ⟨xs, r, ?_⟩
        have := hs
        simp only [List.cons_append, List.cons.injEq] at this
        exact this.2

/-- C3: the wiki URL is the fixed base followed by `h2` when the lowercased
printer name contains the substring `"h2"` and `x1` otherwise, then the
fixed path and the formatted code. -/
theorem getHMSWikiUrl_spec (attr code : Int) (printerName : String) :
    getHMSWikiUrl attr code printerName =
      "https://wiki.bambulab.com/en/" ++
        (if "h2".data <:+: (jsToLowerCase printerName).data then "h2" else "x1") ++
        "/troubleshooting/hmscode/" ++ getFullHMSCode attr code := by
  have hiff := containsSub_iff ("h2".data) ((jsToLowerCase printerName).data)
  simp only [getHMSWikiUrl, jsIncludes]
  by_cases h : containsSub ("h2".data) ((jsToLowerCase printerName).data) = true
  · rw [if_pos h, if_pos (hiff.mp h)]
  · rw [if_neg h, if_neg (fun hc => h (hiff.mpr hc))]

lemma string_eq_of_data (s t : String) (h : s.data = t.data) : s = t := by
  cases s
  cases t
  exact congrArg String.mk h

/-- Replacing underscores by hyphens turns the underscore-grouped code into
the hyphen-grouped one. -/
lemma hyphenate_specFullCode (u v : Nat) :
    hyphenate (specFullCode u v) = specHyphenCode u v := by
  have hsw : ∀ d : Nat, d < 16 →
      (if hexDigitU d = '_' then '-' else hexDigitU d) = hexDigitU d := by decide
  have hu : ("_" : String).data = ['_'] := rfl
  have hh : ("-" : String).data = ['-'] := rfl
  apply string_eq_of_data
  simp only [hyphenate, specFullCode, specHyphenCode, string_data_append,
    string_mk_data, specHexPair, hu, hh, List.cons_append, List.nil_append,
    List.map_append, List.map_cons, List.map_nil]
  simp [hsw, byteAt_div_lt, byteAt_mod_lt]

/-- C9: the on-screen label is `HMS_` followed by the formatted code with
every underscore replaced by a hyphen, while the description lookup key and
the wiki URL keep the underscore-delimited form. -/
theorem displayCode_hyphenated (name : String) (e : HMSError) :
    (renderError name e).displayCode =
      "HMS_" ++ specHyphenCode (toUint32 e.attr) (toUint32 (codeNumOf e.code)) ∧
    (renderError name e).description =
      descriptionFor (specFullCode (toUint32 e.attr) (toUint32 (codeNumOf e.code))) ∧
    (renderError name e).wikiUrl =
      "https://wiki.bambulab.com/en/" ++
        (if jsIncludes (jsToLowerCase name) "h2" then "h2" else "x1") ++
        "/troubleshooting/hmscode/" ++
        specFullCode (toUint32 e.attr) (toUint32 (codeNumOf e.code)) := by
  refine ⟨?_, ?_, ?_⟩
  · simp only [renderError, getFullHMSCode_eq, hyphenate_specFullCode]
  · simp only [renderError, getFullHMSCode_eq]
  · simp only [renderError, getHMSWikiUrl, getFullHMSCode_eq]

/-- C8 counterexample: on `"120x34"` the component removes the interior
`"0x"` and parses `"1234"` (4660), while parsing after stripping only a
`"0x"` prefix reads the longest hex prefix `"120"` (288). -/
theorem codeNum_prefix_strip_counterexample :
    codeNumOf "120x34" = 4660 ∧ specCodeNum "120x34" = 288 ∧
    codeNumOf "120x34" ≠ specCodeNum "120x34" := by
  refine ⟨by decide, by decide, by decide⟩

/-- C8 amended: the code field is parsed as a hexadecimal string after
removing the first occurrence of `"0x"` anywhere in it, `NaN` becomes `0`,
and an unparsable code string therefore renders with `0000_0000` as the two
final groups of the HMS code (and hence of the wiki URL, which appends that
same string). -/
theorem codeNum_nan_renders_zero (s : String) (attr : Int)
    (h : jsParseIntHex (String.mk (removeFirst ['0', 'x'] s.data)) = none) :
    codeNumOf s = 0 ∧
    (getFullHMSCode attr (codeNumOf s)).data.drop 10 =
      ['0', '0', '0', '0', '_', '0', '0', '0', '0'] := by
  have h0 : codeNumOf s = 0 := by simp [codeNumOf, h]
  refine ⟨h0, ?_⟩
  rw [h0, getFullHMSCode_eq]
  have hz : toUint32 0 = 0 := rfl
  rw [hz]
  have hu : ("_" : String).data = ['_'] := rfl
  simp only [specFullCode, string_data_append, string_mk_data, specHexPair, hu,
    List.cons_append, List.nil_append]
  rfl

/-- Witness for the amended C8 at the unparsable code string `"zz"`. -/
theorem codeNum_nan_renders_zero_witness :
    jsParseIntHex (String.mk (removeFirst ['0', 'x'] ("zz" : String).data)) = none ∧
    codeNumOf "zz" = 0 ∧
    (getFullHMSCode 1 (codeNumOf "zz")).data.drop 10 =
      ['0', '0', '0', '0', '_', '0', '0', '0', '0'] :=
  ⟨by decide, (codeNum_nan_renders_zero "zz" 1 (by decide)).1,
   (codeNum_nan_renders_zero "zz" 1 (by decide)).2⟩
